import Mathlib

/-!
Shallow embedding of `src/gamma/ml/validation/_validation.py`:
bootstrap-family cross-validators (`BootstrapCV`, `StationaryBootstrapCV`)
and the deterministic rolling `CircularCV`, with theorems settling the
specification claims about them.

Python floats are modelled as rationals, numpy integer arrays as lists of
naturals, and numpy's `RandomState` as an abstract deterministic stream of
draws (any concrete pseudo-random sequence is an instance of the model).
-/

deriving instance DecidableEq for Except

namespace Facet

/-- Errors raised by the Python code: `ValueError`, `TypeError`, and the
`ZeroDivisionError` that integer/rational division by zero raises. -/
inductive PyError where
  | valueError (msg : String)
  | typeError (msg : String)
  | zeroDivisionError
  deriving Repr, DecidableEq

/-- Model of `numpy.random.RandomState`: two deterministic streams of raw
draws together with the current position of the stream.  `randint n`
consumes one integer draw and reduces it modulo `n` (so every in-range
sequence of draws is representable), `uniform` consumes one rational draw.
Both advance the single stream position, mirroring the fact that one
underlying generator serves all draw kinds. -/
structure RandomState where
  ints : Nat → Nat
  unis : Nat → ℚ
  pos : Nat

/-- Model of `random_state.randint(bound)`: one uniform integer draw in
`{0, …, bound-1}` (for `bound ≥ 1`), advancing the stream. -/
def RandomState.randint (rs : RandomState) (bound : Nat) : Nat × RandomState :=
  (rs.ints rs.pos % bound, { rs with pos := rs.pos + 1 })

/-- Model of `random_state.uniform()`: one uniform rational draw,
advancing the stream. -/
def RandomState.uniform (rs : RandomState) : ℚ × RandomState :=
  (rs.unis rs.pos, { rs with pos := rs.pos + 1 })

/-- The `random_state` constructor argument of the validators:
`None`, an integer seed, or an existing `RandomState` object. -/
inductive RandomStateArg where
  | none
  | seed (s : Int)
  | state (rs : RandomState)

/-- Modelled from the spec: `sklearn.utils.check_random_state` (external
library code, not in `src/`).  Per the spec's RandomSource contract:
nothing yields a generator seeded from system entropy (the ambient
`entropy` argument of the model), an integer seed always yields the
identical generator (a pure function of the seed), and an existing
generator object is returned as-is. -/
def check_random_state (entropy : RandomState) : RandomStateArg → RandomState
  | RandomStateArg.none => entropy
  | RandomStateArg.seed s => ⟨fun k => s.natAbs + k, fun k => 1 / ((s.natAbs + k : ℚ) + 2), 0⟩
  | RandomStateArg.state rs => rs

/-- Draw `count` successive `randint bound` values, threading the stream:
models `random_state.randint(bound, size=count)`. -/
def drawInts (bound : Nat) (rs : RandomState) : Nat → List Nat × RandomState
  | 0 => ([], rs)
  | count + 1 =>
      let (v, rs1) := rs.randint bound
      let (rest, rs2) := drawInts bound rs1 count
      (v :: rest, rs2)

/-- State held by `_BaseBootstrapCV.__init__`: configured split count and
random-state argument. -/
structure BaseBootstrapCV where
  n_splits : Nat
  random_state : RandomStateArg

/-- `BootstrapCV.__init__(n_splits, random_state, stratify)`: passes
`n_splits` and `random_state` to the base class and discards `stratify`. -/
def BootstrapCV.init (n_splits : Nat) (random_state : RandomStateArg)
    (stratify : Option (List Nat)) : BaseBootstrapCV :=
  { n_splits := n_splits, random_state := random_state }

/-- `BootstrapCV._select_train_indices`: `random_state.randint(n_samples,
size=n_samples)`, i.e. `n_samples` independent uniform draws from
`{0, …, n_samples-1}`. -/
def BootstrapCV._select_train_indices (n_samples : Nat) (rs : RandomState) :
    List Nat × RandomState :=
  drawInts n_samples rs n_samples

/-- The `mean_block_size` argument of `StationaryBootstrapCV`: a Python
`int`, a Python `float` (modelled as a rational), or a value of any other
type. -/
inductive MeanBlockSize where
  | ofInt (i : Int)
  | ofFloat (q : ℚ)
  | other
  deriving Repr, DecidableEq

/-- Numeric value of a validated `mean_block_size` (the stored attribute,
as read by `_select_train_indices`). -/
def MeanBlockSize.val : MeanBlockSize → ℚ
  | MeanBlockSize.ofInt i => (i : ℚ)
  | MeanBlockSize.ofFloat q => q
  | MeanBlockSize.other => 0

/-- State held by a successfully constructed `StationaryBootstrapCV`. -/
structure StationaryBootstrapCVState where
  base : BaseBootstrapCV
  mean_block_size : MeanBlockSize

/-- `StationaryBootstrapCV.__init__`: validates `mean_block_size`
(an `int` must be `≥ 2`, a `float` must be strictly between 0 and 1, any
other type is a `TypeError`) and stores it unchanged. -/
def StationaryBootstrapCV.init (n_splits : Nat) (mean_block_size : MeanBlockSize)
    (random_state : RandomStateArg) : Except PyError StationaryBootstrapCVState :=
  match mean_block_size with
  | MeanBlockSize.ofInt i =>
      if i < 2 then
        Except.error (PyError.valueError "arg mean_block_size must be at least 2")
      else
        Except.ok ⟨⟨n_splits, random_state⟩, mean_block_size⟩
  | MeanBlockSize.ofFloat q =>
      if q ≤ 0 ∨ 1 ≤ q then
        Except.error (PyError.valueError "arg mean_block_size must be > 0.0 and < 1.0")
      else
        Except.ok ⟨⟨n_splits, random_state⟩, mean_block_size⟩
  | MeanBlockSize.other =>
      Except.error (PyError.typeError "invalid type for arg mean_block_size")

/-- One iteration of the `for i in range(n_samples)` walk of
`StationaryBootstrapCV._select_train_indices`: at `i = 0` the `or`
short-circuits and only a fresh start index is drawn; at `i > 0` a uniform
draw is consumed and compared to `p_new_block`, either drawing a fresh
start index or advancing the previous index with wrap-around at
`n_samples`. -/
def stationaryStep (p_new_block : ℚ) (n_samples : Nat) (i : Nat) (idx : Nat)
    (rs : RandomState) : Nat × RandomState :=
  if i = 0 then
    rs.randint n_samples
  else
    let (u, rs1) := rs.uniform
    if u ≤ p_new_block then
      rs1.randint n_samples
    else
      let idx1 := idx + 1
      (if n_samples ≤ idx1 then 0 else idx1, rs1)

/-- The walk of `StationaryBootstrapCV._select_train_indices` from step
`i`, with `count` steps remaining and previous index `idx`. -/
def stationaryWalk (p_new_block : ℚ) (n_samples : Nat) :
    Nat → Nat → Nat → RandomState → List Nat × RandomState
  | 0, _, _, rs => ([], rs)
  | count + 1, i, idx, rs =>
      let (v, rs1) := stationaryStep p_new_block n_samples i idx rs
      let (rest, rs2) := stationaryWalk p_new_block n_samples count (i + 1) v rs1
      (v :: rest, rs2)

/-- `StationaryBootstrapCV._select_train_indices`: resolve the mean block
size (a stored value `< 1` is scaled by `n_samples`), set
`p_new_block = 1 / mean_block_size`, and walk `i = 0 … n_samples-1`
emitting one train index per step. -/
def StationaryBootstrapCV._select_train_indices (mbs : ℚ) (n_samples : Nat)
    (rs : RandomState) : List Nat × RandomState :=
  let mean_block_size := if mbs < 1 then (n_samples : ℚ) * mbs else mbs
  let p_new_block := 1 / mean_block_size
  stationaryWalk p_new_block n_samples n_samples 0 0 rs

/-- The test set computed by the driver loop of `_BaseBootstrapCV.split`:
`indices[test_mask]` where `test_mask` is all-ones with positions listed
in `train` cleared — the ascending list of indices in `{0, …, n-1}` not
occurring in `train`. -/
def testComplement (n : Nat) (train : List Nat) : List Nat :=
  (List.range n).filter (fun j => j ∉ train)

/-- The inner `while True` rejection loop of `_BaseBootstrapCV.split`:
repeatedly invoke the train-selection policy until the complement test
set is non-empty, then return the pair.  The loop is unbounded in the
source; `fuel` bounds the model, `none` meaning the bound was hit. -/
def rejectionLoop (sel : Nat → RandomState → List Nat × RandomState) (n : Nat) :
    Nat → RandomState → Option ((List Nat × List Nat) × RandomState)
  | 0, _ => none
  | fuel + 1, rs =>
      let (train, rs1) := sel n rs
      let test := testComplement n train
      if test.isEmpty then rejectionLoop sel n fuel rs1
      else some ((train, test), rs1)

/-- The `for i in range(self.n_splits)` loop of `_BaseBootstrapCV.split`:
one rejection loop per requested split, threading the random stream. -/
def splitLoop (sel : Nat → RandomState → List Nat × RandomState) (n : Nat)
    (fuel : Nat) : Nat → RandomState → Option (List (List Nat × List Nat))
  | 0, _ => some []
  | k + 1, rs =>
      match rejectionLoop sel n fuel rs with
      | Option.none => none
      | Option.some (pair, rs1) =>
          match splitLoop sel n fuel k rs1 with
          | Option.none => none
          | Option.some rest => some (pair :: rest)

/-- `_BaseBootstrapCV.split(X, y)`, parameterized by the subclass's
train-selection policy `sel`.  `n` is `len(X)`; `y_len` is `len(y)` when a
labels collection is supplied.  Validates inputs in source order (label
length first, then `n < 2`), then resolves the random state and runs the
split loop. -/
def baseSplit (sel : Nat → RandomState → List Nat × RandomState)
    (cv : BaseBootstrapCV) (entropy : RandomState) (n : Nat) (y_len : Option Nat)
    (fuel : Nat) : Except PyError (Option (List (List Nat × List Nat))) :=
  if y_len.isSome ∧ y_len ≠ some n then
    Except.error (PyError.valueError "args X and y must have the same length")
  else if n < 2 then
    Except.error (PyError.valueError "args X and y must have a length of at least 2")
  else
    Except.ok (splitLoop sel n fuel cv.n_splits (check_random_state entropy cv.random_state))

/-- `BootstrapCV.split`. -/
def BootstrapCV.split (cv : BaseBootstrapCV) (entropy : RandomState) (n : Nat)
    (y_len : Option Nat) (fuel : Nat) :
    Except PyError (Option (List (List Nat × List Nat))) :=
  baseSplit BootstrapCV._select_train_indices cv entropy n y_len fuel

/-- `StationaryBootstrapCV.split`. -/
def StationaryBootstrapCV.split (cv : StationaryBootstrapCVState) (entropy : RandomState)
    (n : Nat) (y_len : Option Nat) (fuel : Nat) :
    Except PyError (Option (List (List Nat × List Nat))) :=
  baseSplit (StationaryBootstrapCV._select_train_indices cv.mean_block_size.val)
    cv.base entropy n y_len fuel

/-- State held by a successfully constructed `CircularCV`: the
`test_ratio` attribute (field `test_fraction` here) and the unvalidated
`n_splits`. -/
structure CircularCV where
  test_fraction : ℚ
  n_splits : Nat
  deriving Repr, DecidableEq

/-- `CircularCV.__init__(test_ratio, n_splits)`: rejects `test_ratio`
outside the open interval (0, 1); stores `n_splits` without validation. -/
def CircularCV.init (test_fraction : ℚ) (n_splits : Nat) : Except PyError CircularCV :=
  if 0 < test_fraction ∧ test_fraction < 1 then
    Except.ok ⟨test_fraction, n_splits⟩
  else
    Except.error (PyError.valueError "Expected (0 < test_ratio < 1)")

/-- `CircularCV._test_split_bounds(n_samples)`: `step = n_samples /
n_splits` (true division, raising `ZeroDivisionError` when `n_splits`
is 0), `test_size = max(1.0, n_samples * test_ratio)`, and for each split
index the pair `(int(split_start), int(split_start + test_size))`.
`int()` on these non-negative values is the floor. -/
def CircularCV._test_split_bounds (cv : CircularCV) (n_samples : Nat) :
    Except PyError (List (Int × Int)) :=
  if cv.n_splits = 0 then
    Except.error PyError.zeroDivisionError
  else
    let step : ℚ := (n_samples : ℚ) / (cv.n_splits : ℚ)
    let test_size : ℚ := max 1 ((n_samples : ℚ) * cv.test_fraction)
    Except.ok ((List.range cv.n_splits).map
      (fun j : Nat => (⌊(j : ℚ) * step⌋, ⌊(j : ℚ) * step + test_size⌋)))

/-- `CircularCV.test_split_starts(X)`: the first component of each bound
pair. -/
def CircularCV.test_split_starts (cv : CircularCV) (n_samples : Nat) :
    Except PyError (List Int) :=
  (cv._test_split_bounds n_samples).map (List.map Prod.fst)

/-- `np.roll(np.arange(n), -shift)`: entry `i` of the rolled index array
is `(i + shift) mod n`. -/
def rollRange (n : Nat) (shift : Nat) : List Nat :=
  (List.range n).map (fun i => (i + shift) % n)

/-- `CircularCV._n_samples(X, y)`: length of `X` when supplied (requiring
`y`, if also supplied, to have the same length), else length of `y`,
else an error. -/
def CircularCV._n_samples (x_len : Option Nat) (y_len : Option Nat) :
    Except PyError Nat :=
  match x_len with
  | Option.some n =>
      if y_len.isSome ∧ y_len ≠ some n then
        Except.error (PyError.valueError "X and y must be the same length")
      else
        Except.ok n
  | Option.none =>
      match y_len with
      | Option.some m => Except.ok m
      | Option.none => Except.error (PyError.valueError "Need to specify at least one of X or y")

/-- `CircularCV._iter_test_indices(X, y)`: for each bound pair
`(test_start, test_end)`, roll the index array left by `test_start` and
take the first `test_end - test_start` entries. -/
def CircularCV._iter_test_indices (cv : CircularCV) (x_len : Option Nat)
    (y_len : Option Nat) : Except PyError (List (List Nat)) :=
  match CircularCV._n_samples x_len y_len with
  | Except.error e => Except.error e
  | Except.ok n =>
      match cv._test_split_bounds n with
      | Except.error e => Except.error e
      | Except.ok bounds =>
          Except.ok (bounds.map
            (fun b => (rollRange n b.1.toNat).take (b.2 - b.1).toNat))

/-- Modelled from the spec (section 4.4), for comparison with the code's
`StationaryBootstrapCV._select_train_indices`: resolve the mean block size
from the configured value (an integer is used directly, a fraction `f` in
(0, 1) becomes `f × n`), set `p = 1 / mean_block_size`, and walk
`i = 0 … n-1` starting a new block at `i = 0` or when a uniform draw is
`≤ p`, otherwise advancing the previous index by 1 with wrap-around. -/
def specStationarySelect (mbs : MeanBlockSize) (n_samples : Nat)
    (rs : RandomState) : List Nat × RandomState :=
  let resolved : ℚ :=
    match mbs with
    | MeanBlockSize.ofInt i => (i : ℚ)
    | MeanBlockSize.ofFloat f => f * (n_samples : ℚ)
    | MeanBlockSize.other => 0
  stationaryWalk (1 / resolved) n_samples n_samples 0 0 rs

/-- The test-window length the spec claims for every `CircularCV` split:
`floor(max(1, n × test_ratio))`. -/
def claimedCircTestLen (cv : CircularCV) (n_samples : Nat) : Int :=
  ⌊max 1 ((n_samples : ℚ) * cv.test_fraction)⌋

/-- The claim under test for `CircularCV` window lengths: provided the
claimed length is at most `n`, every yielded test index array has that
length. -/
def circLenClaim (cv : CircularCV) (n_samples : Nat) : Prop :=
  claimedCircTestLen cv n_samples ≤ (n_samples : Int) →
    ∀ tests, cv._iter_test_indices (some n_samples) none = Except.ok tests →
      ∀ t ∈ tests, (t.length : Int) = claimedCircTestLen cv n_samples

section Lemmas

lemma drawInts_length (bound : Nat) (rs : RandomState) (count : Nat) :
    (drawInts bound rs count).1.length = count := by
  induction count generalizing rs with
  | zero => rfl
  | succ k ih => simp [drawInts, RandomState.randint, ih]

lemma drawInts_getElem (bound : Nat) (rs : RandomState) (count : Nat) :
    ∀ i < count, (drawInts bound rs count).1[i]? = some (rs.ints (rs.pos + i) % bound) := by
  induction count generalizing rs with
  | zero => intro i hi; omega
  | succ k ih =>
      intro i hi
      match i with
      | 0 => simp [drawInts, RandomState.randint]
      | j + 1 =>
          have hj : j < k := by omega
          have := ih { rs with pos := rs.pos + 1 } j hj
          simp only [drawInts, RandomState.randint, List.getElem?_cons_succ]
          simpa [Nat.add_assoc, Nat.add_comm 1 j] using this

lemma drawInts_mem_lt (bound : Nat) (rs : RandomState) (count : Nat)
    (hb : 1 ≤ bound) : ∀ x ∈ (drawInts bound rs count).1, x < bound := by
  induction count generalizing rs with
  | zero => intro x hx; simp [drawInts] at hx
  | succ k ih =>
      intro x hx
      simp only [drawInts, RandomState.randint, List.mem_cons] at hx
      rcases hx with h | h
      · subst h; exact Nat.mod_lt _ hb
      · exact ih _ x h

lemma stationaryStep_lt (p : ℚ) (n : Nat) (i idx : Nat) (rs : RandomState)
    (hn : 1 ≤ n) : (stationaryStep p n i idx rs).1 < n := by
  unfold stationaryStep RandomState.randint RandomState.uniform
  dsimp only
  split_ifs with h1 h2 h3
  · exact Nat.mod_lt _ hn
  · exact Nat.mod_lt _ hn
  · omega
  · omega

lemma stationaryWalk_length (p : ℚ) (n : Nat) (count i idx : Nat) (rs : RandomState) :
    (stationaryWalk p n count i idx rs).1.length = count := by
  induction count generalizing i idx rs with
  | zero => rfl
  | succ k ih => simp [stationaryWalk, ih]

lemma stationaryWalk_mem_lt (p : ℚ) (n : Nat) (count i idx : Nat) (rs : RandomState)
    (hn : 1 ≤ n) : ∀ x ∈ (stationaryWalk p n count i idx rs).1, x < n := by
  induction count generalizing i idx rs with
  | zero => intro x hx; simp [stationaryWalk] at hx
  | succ k ih =>
      intro x hx
      simp only [stationaryWalk, List.mem_cons] at hx
      rcases hx with h | h
      · subst h; exact stationaryStep_lt p n i idx rs hn
      · exact ih _ _ _ x h

lemma testComplement_mem (n : Nat) (train : List Nat) :
    ∀ j ∈ testComplement n train, j < n ∧ j ∉ train := by
  intro j hj
  simp only [testComplement, List.mem_filter, List.mem_range, decide_eq_true_eq] at hj
  exact hj

lemma stationary_select_mem_lt (mbs : ℚ) (n : Nat) (rs : RandomState) (hn : 1 ≤ n) :
    ∀ x ∈ (StationaryBootstrapCV._select_train_indices mbs n rs).1, x < n := by
  unfold StationaryBootstrapCV._select_train_indices
  exact stationaryWalk_mem_lt _ n n 0 0 rs hn

lemma rejectionLoop_ok (sel : Nat → RandomState → List Nat × RandomState) (n : Nat)
    (hsel : ∀ rs0, ∀ x ∈ (sel n rs0).1, x < n) :
    ∀ (fuel : Nat) (rs : RandomState) (train test : List Nat) (rs1 : RandomState),
      rejectionLoop sel n fuel rs = some ((train, test), rs1) →
      (∀ x ∈ train, x < n) ∧ test = testComplement n train ∧ test ≠ [] := by
  intro fuel
  induction fuel with
  | zero =>
      intro rs train test rs1 h
      simp [rejectionLoop] at h
  | succ k ih =>
      intro rs train test rs1 h
      rw [rejectionLoop] at h
      cases hsn : sel n rs with
      | mk tr rs2 =>
          rw [hsn] at h
          dsimp only at h
          by_cases hemp : (testComplement n tr).isEmpty
          · rw [if_pos hemp] at h
            exact ih _ _ _ _ h
          · rw [if_neg hemp] at h
            injection h with h1
            obtain ⟨h2, h3⟩ := Prod.mk.injEq .. ▸ h1
            obtain ⟨h4, h5⟩ := Prod.mk.injEq .. ▸ h2
            subst h4
            subst h5
            refine ⟨?_, rfl, ?_⟩
            · have := hsel rs
              rw [hsn] at this
              exact this
            · intro hnil
              rw [hnil] at hemp
              simp at hemp

lemma splitLoop_ok (sel : Nat → RandomState → List Nat × RandomState) (n : Nat)
    (hsel : ∀ rs0, ∀ x ∈ (sel n rs0).1, x < n) (fuel : Nat) :
    ∀ (k : Nat) (rs : RandomState) (pairs : List (List Nat × List Nat)),
      splitLoop sel n fuel k rs = some pairs →
      pairs.length = k ∧
      ∀ p ∈ pairs, (∀ x ∈ p.1, x < n) ∧ (∀ x ∈ p.2, x < n) ∧ p.2 ≠ [] ∧
        (∀ x ∈ p.2, x ∉ p.1) := by
  intro k
  induction k with
  | zero =>
      intro rs pairs h
      simp only [splitLoop, Option.some.injEq] at h
      subst h
      exact ⟨rfl, by intro p hp; simp at hp⟩
  | succ m ih =>
      intro rs pairs h
      rw [splitLoop] at h
      cases hr : rejectionLoop sel n fuel rs with
      | none => rw [hr] at h; exact absurd h (by simp)
      | some pr =>
          rw [hr] at h
          obtain ⟨⟨train, test⟩, rs1⟩ := pr
          dsimp only at h
          cases hs : splitLoop sel n fuel m rs1 with
          | none => rw [hs] at h; exact absurd h (by simp)
          | some rest =>
              rw [hs] at h
              simp only [Option.some.injEq] at h
              subst h
              obtain ⟨htr, htest, hne⟩ := rejectionLoop_ok sel n hsel fuel rs train test rs1 hr
              obtain ⟨hlen, hall⟩ := ih rs1 rest hs
              refine ⟨by simp [hlen], ?_⟩
              intro p hp
              rcases List.mem_cons.mp hp with h | h
              · subst h
                refine ⟨htr, ?_, hne, ?_⟩
                · intro x hx
                  rw [htest] at hx
                  exact (testComplement_mem n train x hx).1
                · intro x hx
                  rw [htest] at hx
                  exact (testComplement_mem n train x hx).2
              · exact hall p h

lemma baseSplit_ok (sel : Nat → RandomState → List Nat × RandomState)
    (cv : BaseBootstrapCV) (entropy : RandomState) (n : Nat) (y_len : Option Nat)
    (fuel : Nat) (pairs : List (List Nat × List Nat))
    (hsel : ∀ rs0, ∀ x ∈ (sel n rs0).1, x < n)
    (h : baseSplit sel cv entropy n y_len fuel = Except.ok (some pairs)) :
    pairs.length = cv.n_splits ∧
    ∀ p ∈ pairs, (∀ x ∈ p.1, x < n) ∧ (∀ x ∈ p.2, x < n) ∧ p.2 ≠ [] ∧
      (∀ x ∈ p.2, x ∉ p.1) := by
  rw [baseSplit] at h
  split_ifs at h with h1 h2
  injection h with h3
  exact splitLoop_ok sel n hsel fuel cv.n_splits _ pairs h3

lemma yMismatch_iff (y_len : Option Nat) (n : Nat) :
    (y_len.isSome ∧ y_len ≠ some n) ↔ ∃ m, y_len = some m ∧ m ≠ n := by
  cases y_len <;> simp

lemma baseSplit_error_iff (sel : Nat → RandomState → List Nat × RandomState)
    (cv : BaseBootstrapCV) (entropy : RandomState) (n : Nat) (y_len : Option Nat)
    (fuel : Nat) :
    (∃ e, baseSplit sel cv entropy n y_len fuel = Except.error e) ↔
      (n < 2 ∨ ∃ m, y_len = some m ∧ m ≠ n) := by
  by_cases h1 : y_len.isSome ∧ y_len ≠ some n
  · rw [baseSplit, if_pos h1]
    exact iff_of_true ⟨_, rfl⟩ (Or.inr ((yMismatch_iff y_len n).mp h1))
  · by_cases h2 : n < 2
    · rw [baseSplit, if_neg h1, if_pos h2]
      exact iff_of_true ⟨_, rfl⟩ (Or.inl h2)
    · rw [baseSplit, if_neg h1, if_neg h2]
      constructor
      · intro ⟨e, he⟩
        exact absurd he (by simp)
      · intro hc
        rcases hc with hc | hc
        · exact absurd hc h2
        · exact absurd ((yMismatch_iff y_len n).mpr hc) h1

lemma test_split_bounds_zero (cv : CircularCV) (n : Nat) (hk : cv.n_splits = 0) :
    cv._test_split_bounds n = Except.error PyError.zeroDivisionError := by
  simp [CircularCV._test_split_bounds, hk]

lemma iter_test_indices_zero (cv : CircularCV) (n : Nat) (hk : cv.n_splits = 0) :
    cv._iter_test_indices (some n) none = Except.error PyError.zeroDivisionError := by
  simp [CircularCV._iter_test_indices, CircularCV._n_samples,
    CircularCV._test_split_bounds, hk]

lemma iter_test_indices_ok (cv : CircularCV) (n : Nat) (hk : cv.n_splits ≠ 0) :
    cv._iter_test_indices (some n) none =
      Except.ok (((List.range cv.n_splits).map
        (fun j : Nat => ((⌊(j : ℚ) * ((n : ℚ) / (cv.n_splits : ℚ))⌋ : Int),
          (⌊(j : ℚ) * ((n : ℚ) / (cv.n_splits : ℚ)) +
            max 1 ((n : ℚ) * cv.test_fraction)⌋ : Int)))).map
        (fun b => (rollRange n b.1.toNat).take (b.2 - b.1).toNat)) := by
  simp [CircularCV._iter_test_indices, CircularCV._n_samples,
    CircularCV._test_split_bounds, hk]

lemma floor_window_lower (a ts : ℚ) : ⌊ts⌋ ≤ ⌊a + ts⌋ - ⌊a⌋ := by
  have := Int.le_floor_add a ts
  omega

lemma floor_window_upper (a ts : ℚ) : ⌊a + ts⌋ - ⌊a⌋ ≤ ⌊ts⌋ + 1 := by
  have := Int.le_floor_add_floor a ts
  omega

lemma floor_window_le_n (n : Nat) (fr : ℚ) (a : ℚ) (hn : 1 ≤ n) (hfr : fr < 1) :
    ⌊a + max 1 ((n : ℚ) * fr)⌋ - ⌊a⌋ ≤ (n : Int) := by
  rcases le_total ((n : ℚ) * fr) 1 with h | h
  · rw [max_eq_left h, Int.floor_add_one]
    have h1 : (1 : Int) ≤ (n : Int) := by exact_mod_cast hn
    omega
  · rw [max_eq_right h]
    have hn0 : (0 : ℚ) < (n : ℚ) := by exact_mod_cast hn
    have hlt : (n : ℚ) * fr < ((n : Int) : ℚ) := by
      push_cast
      calc (n : ℚ) * fr < (n : ℚ) * 1 := by
            exact mul_lt_mul_of_pos_left hfr hn0
        _ = (n : ℚ) := mul_one _
    have h2 : ⌊(n : ℚ) * fr⌋ < (n : Int) := Int.floor_lt.mpr hlt
    have h3 := Int.le_floor_add_floor a ((n : ℚ) * fr)
    omega

lemma one_le_floor_ts (n : Nat) (fr : ℚ) : 1 ≤ ⌊max 1 ((n : ℚ) * fr)⌋ := by
  have h1 : (1 : ℚ) ≤ max 1 ((n : ℚ) * fr) := le_max_left _ _
  have := Int.le_floor.mpr (by exact_mod_cast h1 : ((1 : Int) : ℚ) ≤ max 1 ((n : ℚ) * fr))
  omega

lemma circ_take_length (n : Nat) (fr a : ℚ) (hfr : fr < 1) (hn : 1 ≤ n) :
    (((rollRange n (⌊a⌋).toNat).take
        (⌊a + max 1 ((n : ℚ) * fr)⌋ - ⌊a⌋).toNat).length : Int) =
      ⌊a + max 1 ((n : ℚ) * fr)⌋ - ⌊a⌋ ∧
    (⌊a + max 1 ((n : ℚ) * fr)⌋ - ⌊a⌋ = ⌊max 1 ((n : ℚ) * fr)⌋ ∨
     ⌊a + max 1 ((n : ℚ) * fr)⌋ - ⌊a⌋ = ⌊max 1 ((n : ℚ) * fr)⌋ + 1) := by
  have hmono : ⌊a⌋ ≤ ⌊a + max 1 ((n : ℚ) * fr)⌋ := by
    apply Int.floor_mono
    have h1ts : (0 : ℚ) ≤ max 1 ((n : ℚ) * fr) :=
      le_trans zero_le_one (le_max_left _ _)
    linarith
  have hle : ⌊a + max 1 ((n : ℚ) * fr)⌋ - ⌊a⌋ ≤ (n : Int) :=
    floor_window_le_n n fr a hn hfr
  have hlow := floor_window_lower a (max 1 ((n : ℚ) * fr))
  have hup := floor_window_upper a (max 1 ((n : ℚ) * fr))
  have hlen : ((rollRange n (⌊a⌋).toNat).take
      (⌊a + max 1 ((n : ℚ) * fr)⌋ - ⌊a⌋).toNat).length =
      min (⌊a + max 1 ((n : ℚ) * fr)⌋ - ⌊a⌋).toNat n := by
    simp [rollRange]
  rw [hlen, min_eq_left (by omega : (⌊a + max 1 ((n : ℚ) * fr)⌋ - ⌊a⌋).toNat ≤ n)]
  constructor
  · omega
  · omega

end Lemmas

/-- Claim C1: for every `n ≥ 2` and configured split count `k ≥ 1`, a
bootstrap-family splitter's `split` (`BootstrapCV` or
`StationaryBootstrapCV`) yields exactly `k` (train, test) pairs, and in
every yielded pair every train index and every test index lies in
`{0, …, n-1}`, the test set is non-empty, and train and test are
disjoint.  The hypothesis that `split` returned a result reflects that
the source's rejection loop is unbounded (modelled by fuel). -/
theorem claim_C1 :
    (∀ (cv : BaseBootstrapCV) (entropy : RandomState) (n : Nat) (y_len : Option Nat)
      (fuel : Nat) (pairs : List (List Nat × List Nat)),
      2 ≤ n → 1 ≤ cv.n_splits →
      BootstrapCV.split cv entropy n y_len fuel = Except.ok (some pairs) →
      pairs.length = cv.n_splits ∧
      ∀ p ∈ pairs, (∀ x ∈ p.1, x < n) ∧ (∀ x ∈ p.2, x < n) ∧ p.2 ≠ [] ∧
        (∀ x ∈ p.2, x ∉ p.1)) ∧
    (∀ (cv : StationaryBootstrapCVState) (entropy : RandomState) (n : Nat)
      (y_len : Option Nat) (fuel : Nat) (pairs : List (List Nat × List Nat)),
      2 ≤ n → 1 ≤ cv.base.n_splits →
      StationaryBootstrapCV.split cv entropy n y_len fuel = Except.ok (some pairs) →
      pairs.length = cv.base.n_splits ∧
      ∀ p ∈ pairs, (∀ x ∈ p.1, x < n) ∧ (∀ x ∈ p.2, x < n) ∧ p.2 ≠ [] ∧
        (∀ x ∈ p.2, x ∉ p.1)) := by
  constructor
  · intro cv entropy n y_len fuel pairs hn _ h
    exact baseSplit_ok _ cv entropy n y_len fuel pairs
      (fun rs0 => drawInts_mem_lt n rs0 n (by omega)) h
  · intro cv entropy n y_len fuel pairs hn _ h
    exact baseSplit_ok _ cv.base entropy n y_len fuel pairs
      (fun rs0 => stationary_select_mem_lt _ n rs0 (by omega)) h

/-- Witness for C1: `n = 2`, one split, all-zero random streams, for both
splitters. -/
theorem claim_C1_witness :
    (BootstrapCV.split ⟨1, RandomStateArg.none⟩ ⟨fun _ => 0, fun _ => 0, 0⟩ 2 none 1 =
        Except.ok (some [([0, 0], [1])]) ∧
      ([([0, 0], [1])] : List (List Nat × List Nat)).length = 1 ∧
      (∀ p ∈ ([([0, 0], [1])] : List (List Nat × List Nat)),
        (∀ x ∈ p.1, x < 2) ∧ (∀ x ∈ p.2, x < 2) ∧ p.2 ≠ [] ∧ (∀ x ∈ p.2, x ∉ p.1))) ∧
    (StationaryBootstrapCV.split ⟨⟨1, RandomStateArg.none⟩, MeanBlockSize.ofInt 2⟩
        ⟨fun _ => 0, fun _ => 0, 0⟩ 2 none 1 = Except.ok (some [([0, 0], [1])]) ∧
      ([([0, 0], [1])] : List (List Nat × List Nat)).length = 1 ∧
      (∀ p ∈ ([([0, 0], [1])] : List (List Nat × List Nat)),
        (∀ x ∈ p.1, x < 2) ∧ (∀ x ∈ p.2, x < 2) ∧ p.2 ≠ [] ∧ (∀ x ∈ p.2, x ∉ p.1))) :=
  ⟨⟨rfl, claim_C1.1 ⟨1, RandomStateArg.none⟩ ⟨fun _ => 0, fun _ => 0, 0⟩ 2 none 1
      [([0, 0], [1])] (by decide) (by decide) rfl⟩,
   ⟨(by
      simp +decide [StationaryBootstrapCV.split, baseSplit, splitLoop, rejectionLoop,
        StationaryBootstrapCV._select_train_indices, stationaryWalk, stationaryStep,
        RandomState.randint, RandomState.uniform, check_random_state, MeanBlockSize.val,
        testComplement, List.filter, List.range, List.range.loop]),
    claim_C1.2 ⟨⟨1, RandomStateArg.none⟩, MeanBlockSize.ofInt 2⟩
      ⟨fun _ => 0, fun _ => 0, 0⟩ 2 none 1
      [([0, 0], [1])] (by decide) (by decide)
      (by
      simp +decide [StationaryBootstrapCV.split, baseSplit, splitLoop, rejectionLoop,
        StationaryBootstrapCV._select_train_indices, stationaryWalk, stationaryStep,
        RandomState.randint, RandomState.uniform, check_random_state, MeanBlockSize.val,
        testComplement, List.filter, List.range, List.range.loop])⟩⟩

/-- Claim C5: for bootstrap-family splitters, `split` fails with an
error — before yielding any pair — exactly when `n < 2` or a labels
collection of length different from `n` is supplied. -/
theorem claim_C5 (cvb : BaseBootstrapCV) (st : StationaryBootstrapCVState)
    (entropy : RandomState) (n : Nat) (y_len : Option Nat) (fuel : Nat) :
    ((∃ e, BootstrapCV.split cvb entropy n y_len fuel = Except.error e) ↔
      (n < 2 ∨ ∃ m, y_len = some m ∧ m ≠ n)) ∧
    ((∃ e, StationaryBootstrapCV.split st entropy n y_len fuel = Except.error e) ↔
      (n < 2 ∨ ∃ m, y_len = some m ∧ m ≠ n)) :=
  ⟨baseSplit_error_iff _ cvb entropy n y_len fuel,
   baseSplit_error_iff _ st.base entropy n y_len fuel⟩

/-- Claim C6: under a fixed integer seed, two invocations of `split` with
identical configuration and input size produce identical sequences of
pairs: the resolved generator is a pure function of the seed alone, so
the result is independent of the ambient entropy of either run. -/
theorem claim_C6 (s : Int) (k n : Nat) (y_len : Option Nat) (fuel : Nat)
    (entropy1 entropy2 : RandomState) (mbs : MeanBlockSize) :
    BootstrapCV.split ⟨k, RandomStateArg.seed s⟩ entropy1 n y_len fuel =
      BootstrapCV.split ⟨k, RandomStateArg.seed s⟩ entropy2 n y_len fuel ∧
    StationaryBootstrapCV.split ⟨⟨k, RandomStateArg.seed s⟩, mbs⟩ entropy1 n y_len fuel =
      StationaryBootstrapCV.split ⟨⟨k, RandomStateArg.seed s⟩, mbs⟩ entropy2 n y_len fuel :=
  ⟨rfl, rfl⟩

/-- Claim C7: `StationaryBootstrapCV` construction fails with a
`ValueError` exactly when `mean_block_size` is an integer below 2 or a
float outside the open interval (0, 1), fails with a `TypeError` exactly
for any other type, and otherwise succeeds, storing the configuration
(including `mean_block_size` unchanged) — all eagerly at construction. -/
theorem claim_C7 (k : Nat) (r : RandomStateArg) (mbs : MeanBlockSize) :
    ((∃ msg, StationaryBootstrapCV.init k mbs r = Except.error (PyError.valueError msg)) ↔
      ((∃ i, mbs = MeanBlockSize.ofInt i ∧ i < 2) ∨
       (∃ q, mbs = MeanBlockSize.ofFloat q ∧ (q ≤ 0 ∨ 1 ≤ q)))) ∧
    ((∃ msg, StationaryBootstrapCV.init k mbs r = Except.error (PyError.typeError msg)) ↔
      mbs = MeanBlockSize.other) ∧
    (∀ st, StationaryBootstrapCV.init k mbs r = Except.ok st → st = ⟨⟨k, r⟩, mbs⟩) ∧
    (((∃ i, mbs = MeanBlockSize.ofInt i ∧ 2 ≤ i) ∨
      (∃ q, mbs = MeanBlockSize.ofFloat q ∧ 0 < q ∧ q < 1)) →
      StationaryBootstrapCV.init k mbs r = Except.ok ⟨⟨k, r⟩, mbs⟩) := by
  cases mbs with
  | ofInt i =>
      by_cases hi : i < 2
      · refine ⟨?_, ?_, ?_, ?_⟩
        · simp [StationaryBootstrapCV.init, hi]
        · simp [StationaryBootstrapCV.init, hi]
        · intro st hst
          simp [StationaryBootstrapCV.init, hi] at hst
        · rintro (⟨j, hj, hj2⟩ | ⟨q, hq, _⟩)
          · cases hj; omega
          · cases hq
      · refine ⟨?_, ?_, ?_, ?_⟩
        · simp only [StationaryBootstrapCV.init, if_neg hi]
          constructor
          · rintro ⟨msg, hmsg⟩; cases hmsg
          · rintro (⟨j, hj, hj2⟩ | ⟨q, hq, _⟩)
            · cases hj; omega
            · cases hq
        · simp only [StationaryBootstrapCV.init, if_neg hi]
          constructor
          · rintro ⟨msg, hmsg⟩; cases hmsg
          · intro hc; cases hc
        · intro st hst
          simp only [StationaryBootstrapCV.init, if_neg hi, Except.ok.injEq] at hst
          exact hst.symm
        · intro _
          simp [StationaryBootstrapCV.init, hi]
  | ofFloat q =>
      by_cases hq : q ≤ 0 ∨ 1 ≤ q
      · refine ⟨?_, ?_, ?_, ?_⟩
        · simp only [StationaryBootstrapCV.init, if_pos hq]
          exact iff_of_true ⟨_, rfl⟩ (Or.inr ⟨q, rfl, hq⟩)
        · simp only [StationaryBootstrapCV.init, if_pos hq]
          constructor
          · rintro ⟨msg, hmsg⟩; cases hmsg
          · intro hc; cases hc
        · intro st hst
          simp only [StationaryBootstrapCV.init, if_pos hq] at hst
          cases hst
        · rintro (⟨j, hj, _⟩ | ⟨p, hp, hp1, hp2⟩)
          · cases hj
          · cases hp
            rcases hq with hq | hq
            · exact absurd hp1 (by exact not_lt.mpr hq)
            · exact absurd hp2 (by exact not_lt.mpr hq)
      · refine ⟨?_, ?_, ?_, ?_⟩
        · simp only [StationaryBootstrapCV.init, if_neg hq]
          constructor
          · rintro ⟨msg, hmsg⟩; cases hmsg
          · rintro (⟨j, hj, _⟩ | ⟨p, hp, hp2⟩)
            · cases hj
            · cases hp; exact absurd hp2 hq
        · simp only [StationaryBootstrapCV.init, if_neg hq]
          constructor
          · rintro ⟨msg, hmsg⟩; cases hmsg
          · intro hc; cases hc
        · intro st hst
          simp only [StationaryBootstrapCV.init, if_neg hq, Except.ok.injEq] at hst
          exact hst.symm
        · intro _
          simp [StationaryBootstrapCV.init, hq]
  | other =>
      refine ⟨?_, ?_, ?_, ?_⟩
      · simp only [StationaryBootstrapCV.init]
        constructor
        · rintro ⟨msg, hmsg⟩; cases hmsg
        · rintro (⟨j, hj, _⟩ | ⟨p, hp, _⟩)
          · cases hj
          · cases hp
      · simp only [StationaryBootstrapCV.init]
        exact iff_of_true ⟨_, rfl⟩ trivial
      · intro st hst
        simp only [StationaryBootstrapCV.init] at hst
        cases hst
      · rintro (⟨j, hj, _⟩ | ⟨p, hp, _⟩)
        · cases hj
        · cases hp

/-- Witness for C7: a valid integer configuration succeeds and stores the
value unchanged. -/
theorem claim_C7_witness :
    StationaryBootstrapCV.init 1 (MeanBlockSize.ofInt 5) RandomStateArg.none =
      Except.ok ⟨⟨1, RandomStateArg.none⟩, MeanBlockSize.ofInt 5⟩ :=
  (claim_C7 1 RandomStateArg.none (MeanBlockSize.ofInt 5)).2.2.2
    (Or.inl ⟨5, rfl, by decide⟩)

/-- Claim C8: the `stratify` argument of `BootstrapCV` has no effect:
for any two values of `stratify` and otherwise identical arguments, the
constructed splitter state and every pair yielded by `split` are
identical. -/
theorem claim_C8 (k : Nat) (r : RandomStateArg) (s1 s2 : Option (List Nat))
    (entropy : RandomState) (n : Nat) (y_len : Option Nat) (fuel : Nat) :
    BootstrapCV.init k r s1 = BootstrapCV.init k r s2 ∧
    BootstrapCV.split (BootstrapCV.init k r s1) entropy n y_len fuel =
      BootstrapCV.split (BootstrapCV.init k r s2) entropy n y_len fuel :=
  ⟨rfl, rfl⟩

/-- Claim C4: for every `n ≥ 1`, `BootstrapCV`'s train-selection policy
returns an array of length exactly `n`, every entry lies in
`{0, …, n-1}`, and entry `i` is the value of the `i`-th independent
uniform draw of the random stream (sampling with replacement: distinct
entries come from distinct, independent stream positions, so duplicates
may occur). -/
theorem claim_C4 (n : Nat) (rs : RandomState) (hn : 1 ≤ n) :
    (BootstrapCV._select_train_indices n rs).1.length = n ∧
    (∀ x ∈ (BootstrapCV._select_train_indices n rs).1, x < n) ∧
    (∀ i < n, (BootstrapCV._select_train_indices n rs).1[i]? =
      some (rs.ints (rs.pos + i) % n)) :=
  ⟨drawInts_length n rs n, drawInts_mem_lt n rs n hn, drawInts_getElem n rs n⟩

/-- Witness for C4 at `n = 3` with a concrete stream. -/
theorem claim_C4_witness :
    ((BootstrapCV._select_train_indices 3 ⟨fun k => k + 5, fun _ => 0, 0⟩).1.length = 3 ∧
    (∀ x ∈ (BootstrapCV._select_train_indices 3 ⟨fun k => k + 5, fun _ => 0, 0⟩).1, x < 3) ∧
    (∀ i < 3, (BootstrapCV._select_train_indices 3 ⟨fun k => k + 5, fun _ => 0, 0⟩).1[i]? =
      some ((⟨fun k => k + 5, fun _ => 0, 0⟩ : RandomState).ints (0 + i) % 3))) :=
  claim_C4 3 ⟨fun k => k + 5, fun _ => 0, 0⟩ (by decide)

/-- Claim C9: for every `n ≥ 1`, every configured mean block size value,
and every sequence of random draws, every entry of the train array
returned by `StationaryBootstrapCV._select_train_indices` lies in
`{0, …, n-1}`: fresh starts are reduced modulo `n` and the wrap-around
step resets the walked index to 0 before it can reach `n`. -/
theorem claim_C9 (mbs : ℚ) (n : Nat) (rs : RandomState) (hn : 1 ≤ n) :
    ∀ x ∈ (StationaryBootstrapCV._select_train_indices mbs n rs).1, x < n := by
  unfold StationaryBootstrapCV._select_train_indices
  exact stationaryWalk_mem_lt _ n n 0 0 rs hn

/-- Witness for C9 at `n = 2`, `mean_block_size = 1/2`, a concrete
stream: the walk's first emitted index (the value 1) is below `n = 2`. -/
theorem claim_C9_witness : (1 : Nat) < 2 :=
  claim_C9 (1/2) 2 ⟨fun k => k + 3, fun _ => 1/4, 0⟩ (by decide) 1
    (by
      simp +decide [StationaryBootstrapCV._select_train_indices, stationaryWalk,
        stationaryStep, RandomState.randint, RandomState.uniform])

/-- Claim C3: for every validly constructed `StationaryBootstrapCV`, the
train-selection walk of the code coincides exactly with the walk the spec
describes (`specStationarySelect`): `p = 1 / mean_block_size`, where a
float-configured value in (0, 1) is first scaled by `n` and an
integer-configured value is used directly; at `i = 0`, or when a uniform
draw is `≤ p`, a fresh uniform start index is drawn, otherwise the
previous index advances by 1 wrapping to 0 at `n`; and the emitted train
sequence has length exactly `n`. -/
theorem claim_C3 (k : Nat) (r : RandomStateArg) (mbs : MeanBlockSize)
    (st : StationaryBootstrapCVState) (n : Nat) (rs : RandomState)
    (h : StationaryBootstrapCV.init k mbs r = Except.ok st) :
    StationaryBootstrapCV._select_train_indices st.mean_block_size.val n rs =
      specStationarySelect mbs n rs ∧
    (StationaryBootstrapCV._select_train_indices st.mean_block_size.val n rs).1.length = n := by
  have hlen : ∀ q : ℚ, (StationaryBootstrapCV._select_train_indices q n rs).1.length = n := by
    intro q
    unfold StationaryBootstrapCV._select_train_indices
    exact stationaryWalk_length _ n n 0 0 rs
  refine ⟨?_, hlen _⟩
  cases mbs with
  | ofInt i =>
      rw [StationaryBootstrapCV.init] at h
      split_ifs at h with hi
      cases h
      have hnotlt : ¬ ((i : ℚ) < 1) := by
        push_neg at hi ⊢
        exact_mod_cast le_trans (by norm_num) hi
      simp [StationaryBootstrapCV._select_train_indices, specStationarySelect,
        MeanBlockSize.val, hnotlt]
  | ofFloat q =>
      rw [StationaryBootstrapCV.init] at h
      split_ifs at h with hq
      cases h
      push_neg at hq
      have hlt : (q : ℚ) < 1 := hq.2
      simp only [StationaryBootstrapCV._select_train_indices, specStationarySelect,
        MeanBlockSize.val, if_pos hlt]
      rw [mul_comm]
  | other =>
      rw [StationaryBootstrapCV.init] at h
      cases h

/-- Witness for C3: a concrete construction with `mean_block_size = 2`
(integer), `n = 2`, and a concrete stream. -/
theorem claim_C3_witness :
    StationaryBootstrapCV.init 1 (MeanBlockSize.ofInt 2) RandomStateArg.none =
      Except.ok ⟨⟨1, RandomStateArg.none⟩, MeanBlockSize.ofInt 2⟩ ∧
    (StationaryBootstrapCV._select_train_indices
        ((⟨⟨1, RandomStateArg.none⟩, MeanBlockSize.ofInt 2⟩ :
          StationaryBootstrapCVState).mean_block_size.val) 2
        ⟨fun k => k, fun _ => 1/4, 0⟩ =
      specStationarySelect (MeanBlockSize.ofInt 2) 2 ⟨fun k => k, fun _ => 1/4, 0⟩ ∧
    (StationaryBootstrapCV._select_train_indices
        ((⟨⟨1, RandomStateArg.none⟩, MeanBlockSize.ofInt 2⟩ :
          StationaryBootstrapCVState).mean_block_size.val) 2
        ⟨fun k => k, fun _ => 1/4, 0⟩).1.length = 2) :=
  ⟨rfl, claim_C3 1 RandomStateArg.none (MeanBlockSize.ofInt 2)
    ⟨⟨1, RandomStateArg.none⟩, MeanBlockSize.ofInt 2⟩ 2
    ⟨fun k => k, fun _ => 1/4, 0⟩ rfl⟩

/-- Claim C10: `CircularCV` construction does not validate `n_splits`
(constructing with `n_splits = 0` and a valid `test_ratio` succeeds), and
every subsequent split-enumerating call — `_test_split_bounds`,
`test_split_starts`, `_iter_test_indices` — fails with a
division-by-zero error at `step = n_samples / n_splits`, before yielding
anything. -/
theorem claim_C10 (fr : ℚ) (n : Nat) (h0 : 0 < fr) (h1 : fr < 1) :
    CircularCV.init fr 0 = Except.ok ⟨fr, 0⟩ ∧
    CircularCV._test_split_bounds ⟨fr, 0⟩ n = Except.error PyError.zeroDivisionError ∧
    CircularCV.test_split_starts ⟨fr, 0⟩ n = Except.error PyError.zeroDivisionError ∧
    CircularCV._iter_test_indices ⟨fr, 0⟩ (some n) none =
      Except.error PyError.zeroDivisionError := by
  refine ⟨?_, ?_, ?_, ?_⟩
  · rw [CircularCV.init, if_pos ⟨h0, h1⟩]
  · exact test_split_bounds_zero ⟨fr, 0⟩ n rfl
  · rw [CircularCV.test_split_starts, test_split_bounds_zero ⟨fr, 0⟩ n rfl]
    rfl
  · exact iter_test_indices_zero ⟨fr, 0⟩ n rfl

/-- Witness for C10 at `test_ratio = 1/5`, `n = 7`. -/
theorem claim_C10_witness :
    CircularCV.init (1/5) 0 = Except.ok ⟨1/5, 0⟩ ∧
    CircularCV._test_split_bounds ⟨1/5, 0⟩ 7 = Except.error PyError.zeroDivisionError ∧
    CircularCV.test_split_starts ⟨1/5, 0⟩ 7 = Except.error PyError.zeroDivisionError ∧
    CircularCV._iter_test_indices ⟨1/5, 0⟩ (some 7) none =
      Except.error PyError.zeroDivisionError :=
  claim_C10 (1/5) 7 (by norm_num) (by norm_num)

/-- Counterexample to claim C2 as stated: with `test_ratio = 11/20`,
`n_splits = 2`, `n = 3`, the claimed length `⌊max(1, n·test_ratio)⌋ = 1`
is at most `n`, yet the second yielded test array is `[1, 2]`, of
length 2: when `j·step` is fractional, `int(split_start + test_size) -
int(split_start)` can exceed `⌊test_size⌋`. -/
theorem claim_C2_counterexample : ¬ circLenClaim ⟨11/20, 2⟩ 3 := by
  intro hcl
  have hlen : claimedCircTestLen ⟨11/20, 2⟩ 3 = 1 := by
    norm_num [claimedCircTestLen, Int.floor_eq_iff]
  have hiter : CircularCV._iter_test_indices ⟨11/20, 2⟩ (some 3) none =
      Except.ok [[0], [1, 2]] := by
    norm_num [CircularCV._iter_test_indices, CircularCV._n_samples,
      CircularCV._test_split_bounds, rollRange, List.range, List.range.loop,
      Int.floor_eq_iff]
    rfl
  have h2 := hcl (by rw [hlen]; norm_num) [[0], [1, 2]] hiter [1, 2] (by simp)
  rw [hlen] at h2
  simp at h2

/-- Claim C2, amended: every test array yielded by `CircularCV` for
split `j` has length `⌊j·step + test_size⌋ − ⌊j·step⌋` where
`step = n / n_splits` and `test_size = max(1, n·test_ratio)`; this equals
`⌊max(1, n·test_ratio)⌋` — the originally claimed length — or that value
plus one, the excess occurring only when `j·step` is fractional. -/
theorem claim_C2_amended (cv : CircularCV) (n : Nat) (tests : List (List Nat))
    (hfr : cv.test_fraction < 1) (hn : 1 ≤ n)
    (h : cv._iter_test_indices (some n) none = Except.ok tests) :
    tests.length = cv.n_splits ∧
    ∀ j, j < cv.n_splits → ∃ t, tests[j]? = some t ∧
      (t.length : Int) =
        ⌊(j : ℚ) * ((n : ℚ) / (cv.n_splits : ℚ)) + max 1 ((n : ℚ) * cv.test_fraction)⌋ -
          ⌊(j : ℚ) * ((n : ℚ) / (cv.n_splits : ℚ))⌋ ∧
      ((t.length : Int) = claimedCircTestLen cv n ∨
       (t.length : Int) = claimedCircTestLen cv n + 1) := by
  have hk : cv.n_splits ≠ 0 := by
    intro hk0
    rw [iter_test_indices_zero cv n hk0] at h
    exact Except.noConfusion h
  rw [iter_test_indices_ok cv n hk] at h
  injection h with h2
  constructor
  · rw [← h2]
    simp
  · intro j hj
    refine ⟨(rollRange n
        (⌊(j : ℚ) * ((n : ℚ) / (cv.n_splits : ℚ))⌋).toNat).take
        ((⌊(j : ℚ) * ((n : ℚ) / (cv.n_splits : ℚ)) + max 1 ((n : ℚ) * cv.test_fraction)⌋ -
          ⌊(j : ℚ) * ((n : ℚ) / (cv.n_splits : ℚ))⌋).toNat), ?_, ?_, ?_⟩
    · rw [← h2]
      simp [List.getElem?_map, List.getElem?_range, hj]
    · exact (circ_take_length n cv.test_fraction
        ((j : ℚ) * ((n : ℚ) / (cv.n_splits : ℚ))) hfr hn).1
    · have hc := circ_take_length n cv.test_fraction
        ((j : ℚ) * ((n : ℚ) / (cv.n_splits : ℚ))) hfr hn
      have hclm : claimedCircTestLen cv n = ⌊max 1 ((n : ℚ) * cv.test_fraction)⌋ := rfl
      rw [hclm, hc.1]
      exact hc.2

/-- Witness for C2 (amended) at the counterexample configuration
`test_ratio = 11/20`, `n_splits = 2`, `n = 3`: the two windows have
lengths 1 and 2, the first equal to the formula's value for `j = 0`, the
second one more than `⌊test_size⌋`. -/
theorem claim_C2_amended_witness :
    ([[0], [1, 2]] : List (List Nat)).length = (⟨11/20, 2⟩ : CircularCV).n_splits ∧
    ∀ j, j < (⟨11/20, 2⟩ : CircularCV).n_splits →
      ∃ t, ([[0], [1, 2]] : List (List Nat))[j]? = some t ∧
        (t.length : Int) =
          ⌊(j : ℚ) * ((3 : ℚ) / ((⟨11/20, 2⟩ : CircularCV).n_splits : ℚ)) +
            max 1 ((3 : ℚ) * (⟨11/20, 2⟩ : CircularCV).test_fraction)⌋ -
            ⌊(j : ℚ) * ((3 : ℚ) / ((⟨11/20, 2⟩ : CircularCV).n_splits : ℚ))⌋ ∧
        ((t.length : Int) = claimedCircTestLen ⟨11/20, 2⟩ 3 ∨
         (t.length : Int) = claimedCircTestLen ⟨11/20, 2⟩ 3 + 1) :=
  claim_C2_amended ⟨11/20, 2⟩ 3 [[0], [1, 2]] (by norm_num) (by norm_num)
    (by
      norm_num [CircularCV._iter_test_indices, CircularCV._n_samples,
        CircularCV._test_split_bounds, rollRange, List.range, List.range.loop,
        Int.floor_eq_iff]
      rfl)

end Facet
